import Mathlib

/-!
Shallow embedding of the analytics reconciliation and cache engine of the
farm-monitoring frontend (FarmDashboard.js / FarmInsights.js).

JavaScript values are modelled by `JSVal`; numbers are rationals with a
separate `nan` constructor, and operations that can raise a `TypeError`
return `Except String`.  Platform builtins that the code calls but that are
not part of the repository (`JSON.parse`, `Date.parse`) are passed as
explicit function parameters.
-/

/-- A JavaScript runtime value.  Numbers are exact rationals; `nan` stands
for the IEEE NaN; objects are association lists in insertion order. -/
inductive JSVal : Type where
  | null : JSVal
  | undefined : JSVal
  | nan : JSVal
  | bool (b : Bool) : JSVal
  | num (q : ℚ) : JSVal
  | str (s : String) : JSVal
  | arr (xs : List JSVal) : JSVal
  | obj (fields : List (String × JSVal)) : JSVal

/-- JavaScript truthiness of a value. -/
def truthy : JSVal → Bool
  | .null => false
  | .undefined => false
  | .nan => false
  | .bool b => b
  | .num q => q != 0
  | .str s => s.data != []
  | .arr _ => true
  | .obj _ => true

/-- The JavaScript `typeof` operator. -/
def typeofJS : JSVal → String
  | .null => "object"
  | .undefined => "undefined"
  | .nan => "number"
  | .bool _ => "boolean"
  | .num _ => "number"
  | .str _ => "string"
  | .arr _ => "object"
  | .obj _ => "object"

def isArrayJS : JSVal → Bool
  | .arr _ => true
  | _ => false

/-- A value is `null` or `undefined` (the two nullish values of `??`). -/
def nullish : JSVal → Bool
  | .null => true
  | .undefined => true
  | _ => false

/-- The nullish-coalescing operator `a ?? b`. -/
def coalesce (a b : JSVal) : JSVal := if nullish a then b else a

def allDigits (cs : List Char) : Bool := cs.all Char.isDigit

def natOfDigits (cs : List Char) : ℕ :=
  cs.foldl (fun a c => a * 10 + (c.toNat - 48)) 0

/-- Whitespace trimming on char lists (models `String.prototype.trim`). -/
def trimChars (cs : List Char) : List Char :=
  ((cs.dropWhile Char.isWhitespace).reverse.dropWhile Char.isWhitespace).reverse

/-- Numeric coercion of a string (models `Number(string)` for the decimal
literal forms; exponents and hex forms are not produced by this code base). -/
def parseNumStr (s : String) : Option ℚ :=
  let t := trimChars s.data
  if t = [] then some 0
  else
    let sgn : ℚ := match t with
      | '-' :: _ => -1
      | _ => 1
    let body := match t with
      | '+' :: rest => rest
      | '-' :: rest => rest
      | cs => cs
    let ip := body.takeWhile Char.isDigit
    let rest := body.dropWhile Char.isDigit
    match rest with
    | [] => if ip = [] then none else some (sgn * natOfDigits ip)
    | '.' :: fr =>
      if allDigits fr ∧ (ip ≠ [] ∨ fr ≠ []) then
        some (sgn * ((natOfDigits ip : ℚ) + (natOfDigits fr : ℚ) / (10 ^ fr.length)))
      else none
    | _ => none

/-- The JavaScript `Number(v)` coercion; `none` is NaN. -/
def toNumber : JSVal → Option ℚ
  | .num q => some q
  | .nan => none
  | .null => some 0
  | .undefined => none
  | .bool b => some (if b then 1 else 0)
  | .str s => parseNumStr s
  | .obj _ => none
  | .arr [] => some 0
  | .arr [x] =>
    match x with
    | .null => some 0
    | .undefined => some 0
    | _ => toNumber x
  | .arr (_ :: _ :: _) => none

def jsNum (o : Option ℚ) : JSVal :=
  match o with
  | some q => .num q
  | none => .nan

/-- A canonical decimal array index encoded as a string (property-key
canonicalisation: `a[\x22 01\x22]` is not an index). -/
def strIdx? (s : String) : Option ℕ :=
  match s.data with
  | [] => none
  | cs =>
    if allDigits cs ∧ (cs.head? ≠ some '0' ∨ cs = ['0']) then some (natOfDigits cs)
    else none

def objGetD (fs : List (String × JSVal)) (k : String) : JSVal :=
  (List.lookup k fs).getD .undefined

/-- Total property access `v[k]` for non-nullish receivers (indices and
`length` on arrays and strings, key lookup on objects, `undefined` on
primitives). -/
def jsGetD (v : JSVal) (k : String) : JSVal :=
  match v with
  | .obj fs => objGetD fs k
  | .arr xs =>
    if k = "length" then .num xs.length
    else
      match strIdx? k with
      | some i => xs.getD i .undefined
      | none => .undefined
  | .str s =>
    if k = "length" then .num s.data.length
    else
      match strIdx? k with
      | some i =>
        match s.data.get? i with
        | some c => .str (String.mk [c])
        | none => .undefined
      | none => .undefined
  | _ => .undefined

/-- Property access `v[k]`, raising a `TypeError` on `null`/`undefined`. -/
def jsGet (v : JSVal) (k : String) : Except String JSVal :=
  match v with
  | .null => .error ("TypeError: cannot read properties of null: " ++ k)
  | .undefined => .error ("TypeError: cannot read properties of undefined: " ++ k)
  | _ => .ok (jsGetD v k)

/-- The `in` operator, a `TypeError` on every non-object receiver. -/
def hasProp (k : String) (v : JSVal) : Except String Bool :=
  match v with
  | .obj fs => .ok (fs.any (fun p => p.1 == k))
  | .arr xs =>
    .ok (k == "length" ||
      (match strIdx? k with
       | some i => i < xs.length
       | none => false))
  | _ => .error "TypeError: cannot use in operator"

/-- Model of the keys builtin for objects, arrays and strings (index keys). -/
def jsKeys : JSVal → List String
  | .obj fs => fs.map Prod.fst
  | .arr xs => (List.range xs.length).map toString
  | .str s => (List.range s.data.length).map toString
  | _ => []

/-- Key listing of a value, a `TypeError` on `null`/`undefined`. -/
def jsKeysE (v : JSVal) : Except String (List String) :=
  match v with
  | .null => .error "TypeError: Object.keys of null"
  | .undefined => .error "TypeError: Object.keys of undefined"
  | _ => .ok (jsKeys v)

/-- Object property assignment `o[k] = v`: update in place, else append. -/
def objSet (fs : List (String × JSVal)) (k : String) (v : JSVal) :
    List (String × JSVal) :=
  if fs.any (fun p => p.1 == k) then
    fs.map (fun p => if p.1 == k then (k, v) else p)
  else fs ++ [(k, v)]

/-- Array map in the `Except` monad (left-to-right, first
`TypeError` aborts), with definitional equations convenient for proofs. -/
def mapME {β : Type} (f : JSVal → Except String β) : List JSVal → Except String (List β)
  | [] => .ok []
  | x :: xs => do
    let y ← f x
    let ys ← mapME f xs
    pure (y :: ys)

/-- One pair of the delimited-string fallback: `pr.split(",").map(Number)`
destructured as `[a, b]`, producing `[b, a]`. -/
def strPair (pr : String) : JSVal :=
  let nums := (pr.splitOn ",").map (fun t => parseNumStr t)
  let aV := match nums.get? 0 with
    | some o => jsNum o
    | none => JSVal.undefined
  let bV := match nums.get? 1 with
    | some o => jsNum o
    | none => JSVal.undefined
  .arr [bV, aV]

/-- The swap lambda of the pair branch, keeping the literal's evaluation
order: index 1 is read first, then index 0. -/
def swapPair (p : JSVal) : Except String JSVal := do
  let v1 ← jsGet p "1"
  let v0 ← jsGet p "0"
  pure (JSVal.arr [jsNum (toNumber v1), jsNum (toNumber v0)])

/-- The pass-through lambda of the pair branch: index 0, then index 1. -/
def keepPair (p : JSVal) : Except String JSVal := do
  let v0 ← jsGet p "0"
  let v1 ← jsGet p "1"
  pure (JSVal.arr [jsNum (toNumber v0), jsNum (toNumber v1)])

/-- Point mapper reading `lng` then `lat`. -/
def latLngPoint (pt : JSVal) : Except String JSVal := do
  let lng ← jsGet pt "lng"
  let lat ← jsGet pt "lat"
  pure (JSVal.arr [jsNum (toNumber lng), jsNum (toNumber lat)])

/-- Point mapper reading `longitude` then `latitude`. -/
def latitudeLongitudePoint (pt : JSVal) : Except String JSVal := do
  let lng ← jsGet pt "longitude"
  let lat ← jsGet pt "latitude"
  pure (JSVal.arr [jsNum (toNumber lng), jsNum (toNumber lat)])

/-- Object fallback of `parseCoords`: pick the first two numeric-valued
fields of the point and produce `[nums[1], nums[0]]`, else `[]`. -/
def twoNumericPoint (pt : JSVal) : Except String JSVal := do
  let ks ← jsKeysE pt
  let nums := ks.filterMap (fun k => toNumber (jsGetD pt k))
  if 2 ≤ nums.length then
    pure (JSVal.arr [.num (nums.getD 1 0), .num (nums.getD 0 0)])
  else pure (JSVal.arr [])

def isLenTwoArr : JSVal → Bool
  | .arr l => l.length == 2
  | _ => false

/-- The branch of `parseCoords` for a non-empty array whose first element is
`typeof "object"` but not a numeric nested pair. -/
def parseCoordsArrObj (xs : List JSVal) (x0 : JSVal) : Except String JSVal :=
  if typeofJS x0 = "object" then do
    let hlat ← hasProp "lat" x0
    let hlng ← if hlat then hasProp "lng" x0 else pure false
    if hlat && hlng then
      (mapME latLngPoint xs).map JSVal.arr
    else do
      let hlat2 ← hasProp "latitude" x0
      let hlng2 ← if hlat2 then hasProp "longitude" x0 else pure false
      if hlat2 && hlng2 then
        (mapME latitudeLongitudePoint xs).map JSVal.arr
      else do
        let ys ← mapME twoNumericPoint xs
        pure (JSVal.arr (ys.filter (fun p => isLenTwoArr p)))
  else
    .ok (.arr xs)

/-- The array branch of `parseCoords` (lines 142-183). -/
def parseCoordsArr (xs : List JSVal) : Except String JSVal :=
  match xs with
  | [] => .ok (.arr [])
  | x0 :: _ =>
    if isArrayJS x0 then
      match toNumber (jsGetD x0 "0"), toNumber (jsGetD x0 "1") with
      | some a, some b =>
        if -90 ≤ a ∧ a ≤ 90 ∧ -180 ≤ b ∧ b ≤ 180 then
          (mapME swapPair xs).map JSVal.arr
        else
          (mapME keepPair xs).map JSVal.arr
      | some _, none => parseCoordsArrObj xs x0
      | none, _ => parseCoordsArrObj xs x0
    else parseCoordsArrObj xs x0

/-- The coordinate resolver (FarmDashboard.js 113-188).  `jp` models the
`JSON.parse`
builtin (`none` = it threw) and `fuel` bounds the string-reparse recursion,
which in JavaScript terminates because each round strips quotes. -/
def parseCoords (jp : String → Option JSVal) : Nat → JSVal → Except String JSVal
  | fuel, coords =>
    if truthy coords = false then .ok (.arr [])
    else
      match coords with
      | .str s =>
        match fuel with
        | 0 => .error "recursion limit"
        | n + 1 =>
          match jp s with
          | some parsed => parseCoords jp n parsed
          | none =>
            if s.data.contains ',' then
              .ok (.arr (((s.splitOn ";").map (fun p => p.trim)).map strPair))
            else .ok (.arr [])
      | .obj fs =>
        if (fs.any (fun p => p.1 == "latitude")) && (fs.any (fun p => p.1 == "longitude")) then
          .ok (.arr [.arr [objGetD fs "longitude", objGetD fs "latitude"]])
        else .ok (.arr [])
      | .arr xs => parseCoordsArr xs
      | _ => .ok (.arr [])

/-- Encoding of a rational pair as a 2-element JavaScript numeric array. -/
def encPair (p : ℚ × ℚ) : JSVal := .arr [.num p.1, .num p.2]

/-- A parse function that always throws, for concrete instantiations. -/
def jpNone : String → Option JSVal := fun _ => none

/-- The fallback loop of every sample mapper: first numeric-valued field of
the object that is not named `date`, in key order (NaN fields are skipped). -/
def firstNumericLoop (d : JSVal) : List String → Option ℚ
  | [] => none
  | k :: ks =>
    if k = "date" then firstNumericLoop d ks
    else
      match toNumber (jsGetD d k) with
      | some n => some n
      | none => firstNumericLoop d ks

def firstNumericNonDate (d : JSVal) : Option ℚ :=
  firstNumericLoop d (jsKeys d)

/-- Value resolution of the temperature mapper: `temp`, then `temperature`,
then the first-numeric fallback; `none` covers both `null` and NaN, which
the source treats identically (`val == null || isNaN(val)`). -/
def tempResolve (d : JSVal) : Except String (Option ℚ) := do
  let ht ← hasProp "temp" d
  if ht then pure (toNumber (jsGetD d "temp"))
  else
    let ht2 ← hasProp "temperature" d
    if ht2 then pure (toNumber (jsGetD d "temperature"))
    else pure (firstNumericNonDate d)

/-- Per-sample mapper of the `temperature` family (lines 215-239).  Note
that an unresolvable value returns the sample object unchanged. -/
def tempSample (d : JSVal) : Except String JSVal :=
  if truthy d = false then .ok d
  else do
    let v ← tempResolve d
    match v with
    | none => pure d
    | some val =>
      pure (.obj [("date", jsGetD d "date"),
        ("temp", .num (if val > 100 then val - 273.15 else val))])

/-- Value resolution of the soil-temperature mapper once `soil_temp` is
absent: `st`, then the first-numeric fallback. -/
def soilResolve (d : JSVal) : Except String (Option ℚ) := do
  let hst ← hasProp "st" d
  if hst then pure (toNumber (jsGetD d "st"))
  else pure (firstNumericNonDate d)

/-- Per-sample mapper of the `soil_temperature` family (lines 246-269). -/
def soilTempSample (d : JSVal) : Except String JSVal :=
  if truthy d = false then .ok d
  else do
    let hs ← hasProp "soil_temp" d
    if hs then
      pure (.obj [("date", jsGetD d "date"),
        ("soil_temp",
          match toNumber (jsGetD d "soil_temp") with
          | none => .null
          | some q => .num (if q > 100 then q - 273.15 else q))])
    else do
      let v ← soilResolve d
      match v with
      | none => pure (.obj [("date", jsGetD d "date"), ("soil_temp", .null)])
      | some q =>
        pure (.obj [("date", jsGetD d "date"),
          ("soil_temp", .num (if q > 100 then q - 273.15 else q))])

/-- Value resolution of the canopy-temperature mapper: `canopy_temp`, then
the first-numeric fallback. -/
def canopyResolve (d : JSVal) : Except String (Option ℚ) := do
  let hc ← hasProp "canopy_temp" d
  if hc then pure (toNumber (jsGetD d "canopy_temp"))
  else pure (firstNumericNonDate d)

/-- Per-sample mapper of the `canopy_temperature` family (lines 274-291). -/
def canopySample (d : JSVal) : Except String JSVal :=
  if truthy d = false then .ok d
  else do
    let v ← canopyResolve d
    match v with
    | none => pure (.obj [("date", jsGetD d "date"), ("canopy_temp", .null)])
    | some q =>
      pure (.obj [("date", jsGetD d "date"),
        ("canopy_temp", .num (if q > 100 then q - 273.15 else q))])

/-- Per-sample mapper of the `rainfall` family (lines 296-307): `rain_mm`
passes the sample through, `rain` is renamed with `Number` coercion,
otherwise first-numeric fallback, otherwise a `null` value. -/
def rainSample (d : JSVal) : Except String JSVal :=
  if truthy d = false then .ok d
  else do
    let h1 ← hasProp "rain_mm" d
    if h1 then pure d
    else
      let h2 ← hasProp "rain" d
      if h2 then
        pure (.obj [("date", jsGetD d "date"),
          ("rain_mm", jsNum (toNumber (jsGetD d "rain")))])
      else
        match firstNumericNonDate d with
        | some n => pure (.obj [("date", jsGetD d "date"), ("rain_mm", .num n)])
        | none => pure (.obj [("date", jsGetD d "date"), ("rain_mm", .null)])

/-- The spread copy of the raw input: object fields, or index keys for an
array. -/
def spreadFields : JSVal → List (String × JSVal)
  | .obj fs => fs
  | .arr xs => (xs.enum).map (fun p => (toString p.1, p.2))
  | _ => []

/-- One nested-grouping promotion (lines 200-211), e.g.
`out.temperature = out.weather.temperature`.  The disjunction
`!t || !t.length` is evaluated non-short-circuit here, which is
sound because property access is modelled total on every value. -/
def promote (out : List (String × JSVal)) (destKey srcKey subKey : String) :
    List (String × JSVal) :=
  let t := objGetD out destKey
  let w := objGetD out srcKey
  if ((!truthy t) || (!truthy (jsGetD t "length")))
      && truthy w && isArrayJS (jsGetD w subKey) then
    objSet out destKey (jsGetD w subKey)
  else out

/-- One per-family pass: map the family's sample function over the array at
`key`, or reset the key to an empty array when it is not an array. -/
def familyPass (out : List (String × JSVal)) (key : String)
    (f : JSVal → Except String JSVal) : Except String (List (String × JSVal)) :=
  match objGetD out key with
  | .arr xs => do
    let ys ← mapME f xs
    pure (objSet out key (.arr ys))
  | _ => pure (objSet out key (.arr []))

/-- The enumerated vegetation/soil index families (lines 311-325). -/
def expectedArrays : List String :=
  ["ndvi_timeseries", "evi_timeseries", "gndvi_timeseries", "savi_timeseries",
   "ndwi_timeseries", "msavi_timeseries", "arvi_timeseries", "lai_timeseries",
   "chlorophyll_index", "water_stress_index", "biomass_proxy",
   "canopy_fraction", "soil_moisture"]

/-- The metric series normalizer (FarmDashboard.js 194-337). -/
def normalizeAnalytics (raw : JSVal) : Except String JSVal :=
  if truthy raw = false ∨ typeofJS raw ≠ "object" then .ok .null
  else do
    let out := spreadFields raw
    let out := promote out "temperature" "weather" "temperature"
    let out := promote out "rainfall" "weather" "rainfall"
    let out := promote out "soil_moisture" "soil" "moisture"
    let out := promote out "soil_temperature" "soil" "temperature"
    let out ← familyPass out "temperature" tempSample
    let out ← familyPass out "soil_temperature" soilTempSample
    let out ← familyPass out "canopy_temperature" canopySample
    let out ← familyPass out "rainfall" rainSample
    let out := expectedArrays.foldl
      (fun o k => if isArrayJS (objGetD o k) then o else objSet o k (.arr [])) out
    let out :=
      if truthy (objGetD out "soil_profile") then out
      else
        objSet out "soil_profile"
          (let s := objGetD out "soil"
           if truthy s then
             (let p := jsGetD s "profile"
              if truthy p then p else .obj [])
           else .obj [])
    let out :=
      if truthy (objGetD out "alerts") then out
      else objSet out "alerts" (.obj [("frost", .arr []), ("heat", .arr [])])
    pure (.obj out)

/-- Metric-key entry with an empty array value. -/
def ea (k : String) : String × JSVal := (k, JSVal.arr [])

/-- Keys that the normalizer reads from its input (metric families plus
the nested groupings and default-able containers). -/
def normalizerInputKeys : List String :=
  ["temperature", "rainfall", "soil_moisture", "soil_temperature",
   "canopy_temperature", "weather", "soil", "soil_profile", "alerts"] ++
  expectedArrays

/-- The metric-family keys the output must always carry as arrays. -/
def metricFamilyKeys : List String :=
  ["temperature", "soil_temperature", "canopy_temperature", "rainfall"] ++
  expectedArrays

def g4C4 : List (String × JSVal) :=
  [ea "temperature", ea "soil_temperature", ea "canopy_temperature",
   ea "rainfall"]

def g5C4 : List (String × JSVal) := g4C4 ++ expectedArrays.map ea

def g6C4 : List (String × JSVal) := g5C4 ++ [("soil_profile", JSVal.obj [])]

/-- The entries the normalizer appends to an input that carries none of the
expected keys. -/
def c4Suffix : List (String × JSVal) :=
  g6C4 ++ [("alerts", JSVal.obj [("frost", JSVal.arr []), ("heat", JSVal.arr [])])]

inductive FetchOutcome : Type where
  | servedFromCache (v : JSVal) : FetchOutcome
  | backendError (e : JSVal) : FetchOutcome
  | success (v : JSVal) : FetchOutcome
  | thrown (msg : String) : FetchOutcome

/-- Observable result of one `fetchAnalytics` call: the outcome, the cache
object after the call, whether the provider `fetch` was issued, and whether
`normalizeAnalytics` ran on the response. -/
structure FetchResult : Type where
  outcome : FetchOutcome
  cacheAfter : List (String × JSVal)
  providerCalled : Bool
  normalizerRan : Bool

/-- The dashboard orchestrator (FarmDashboard.js 516-579).  `data` is the
JSON body
the provider answers with; the `id` route parameter is `farmId`. -/
def fetchAnalytics (jp : String → Option JSVal) (fuel : Nat)
    (farmId startDate endDate : String) (coords : JSVal) (forceRefresh : Bool)
    (cache : List (String × JSVal)) (data : JSVal) : FetchResult :=
  match parseCoords jp fuel coords with
  | .error msg => ⟨.thrown msg, cache, false, false⟩
  | .ok _cleanCoords =>
    let cacheKey := farmId ++ "_" ++ startDate ++ "_" ++ endDate
    if forceRefresh = false ∧ truthy (objGetD cache cacheKey) = true then
      ⟨.servedFromCache (objGetD cache cacheKey), cache, false, false⟩
    else
      match jsGet data "error" with
      | .error msg => ⟨.thrown msg, cache, true, false⟩
      | .ok e =>
        if truthy e then ⟨.backendError e, cache, true, false⟩
        else
          match normalizeAnalytics data with
          | .error msg => ⟨.thrown msg, cache, true, true⟩
          | .ok n => ⟨.success n, objSet cache cacheKey n, true, true⟩

/-- Decimal print of a rational; stands in for the JavaScript number
formatting builtin, which no claim exercises on non-integer values. -/
def ratToString (q : ℚ) : String :=
  if q.den = 1 then toString q.num
  else toString q.num ++ "/" ++ toString q.den

mutual

/-- The JavaScript string coercion used by template literals and
`Date.parse` argument conversion, for the value shapes this code stores
(arrays join their elements with commas, nullish elements printing empty). -/
def jsToString : JSVal → String
  | .str s => s
  | .null => "null"
  | .undefined => "undefined"
  | .nan => "NaN"
  | .bool true => "true"
  | .bool false => "false"
  | .num q => ratToString q
  | .arr xs => jsArrBody xs
  | .obj _ => "[object Object]"

def jsArrBody : List JSVal → String
  | [] => ""
  | x :: xs =>
    (if nullish x then "" else jsToString x) ++
    (match xs with
     | [] => ""
     | _ => "," ++ jsArrBody xs)

end

/-- A JavaScript number as used for the cache-entry timestamp comparison:
negative infinity, NaN, or a finite value. -/
inductive Stamp : Type where
  | negInf : Stamp
  | nan : Stamp
  | fin (q : ℚ) : Stamp

def stampTruthy : Stamp → Bool
  | .negInf => true
  | .nan => false
  | .fin q => q != 0

/-- The `>` comparison on stamps (false whenever NaN is involved). -/
def stampGt : Stamp → Stamp → Bool
  | .fin a, .fin b => decide (b < a)
  | .fin _, .negInf => true
  | _, _ => false

/-- The per-entry timestamp of the insights cache chooser
(FarmInsights.js 190-191): `response.timestamp` through `Date.parse` when
`response` and its `timestamp` are truthy, else `_cached_at_ts * 1000`
when truthy, else `-Infinity`.  `dateParse` models the `Date.parse`
builtin (`none` = NaN). -/
def stampOf (dateParse : String → Option ℚ) (val : JSVal) : Stamp :=
  let resp := jsGetD val "response"
  if truthy resp && truthy (jsGetD resp "timestamp") then
    match dateParse (jsToString (jsGetD resp "timestamp")) with
    | some q => .fin q
    | none => .nan
  else
    let c := jsGetD val "_cached_at_ts"
    if truthy c then
      match toNumber c with
      | some q => .fin (q * 1000)
      | none => .nan
    else .negInf

/-- One iteration of the `candidateKeys.forEach` chooser
(FarmInsights.js 187-196). -/
def pickStep (dateParse : String → Option ℚ) (store : JSVal)
    (best : String × Stamp) (k : String) : String × Stamp :=
  let val := jsGetD store k
  if truthy val = false then best
  else
    let stamp := stampOf dateParse val
    if stampTruthy stamp && stampGt stamp best.2 then (k, stamp) else best

/-- The chooser: start from the first candidate with `-Infinity` and keep
the strictly larger truthy stamps. -/
def pickBestKey (dateParse : String → Option ℚ) (store : JSVal)
    (cands : List String) : String × Stamp :=
  cands.foldl (pickStep dateParse store) (cands.headD "", .negInf)

def charsLead : List Char → List Char → Bool
  | [], _ => true
  | _ :: _, [] => false
  | a :: pre2, b :: s2 => a == b && charsLead pre2 s2

/-- String start check on the character lists, models startsWith. -/
def strLead (pre s : String) : Bool := charsLead pre.data s.data

/-- The candidate keys of the shared cache for one farm:
`Object.keys(savedCache).filter(k => k.startsWith(farmId + "_"))`. -/
def candsOf (farmId : String) (savedCache : JSVal) : List String :=
  (jsKeys savedCache).filter (fun k => strLead (farmId ++ "_") k)

inductive LoadOutcome : Type where
  | fromCache (key : String) (v : JSVal) : LoadOutcome
  | fromBackend (v : JSVal) : LoadOutcome
  | backendError (e : JSVal) : LoadOutcome
  | noCoords : LoadOutcome
  | thrown (msg : String) : LoadOutcome

/-- Observable result of one insights load: outcome, the key/value pair
written into the shared cache store (if any), whether the backend was
called, and whether the normalizer ran. -/
structure LoadResult : Type where
  outcome : LoadOutcome
  written : Option (String × JSVal)
  backendCalled : Bool
  normalizerRan : Bool

/-- The backend fallback of `loadForFarm` (FarmInsights.js 212-257),
including the cache write of the timestamp/response wrapper under the
`farmId_start_end` (or `auto`) key.  `now` is `Date.now()` in ms. -/
def loadBackend (farmId : String) (farmCoordinates data : JSVal)
    (now : ℚ) : LoadResult :=
  if truthy farmCoordinates && truthy (jsGetD farmCoordinates "length") then
    match jsGet data "error" with
    | .error msg => ⟨.thrown msg, none, true, false⟩
    | .ok e =>
      if truthy e then ⟨.backendError e, none, true, false⟩
      else
        match normalizeAnalytics data with
        | .error msg => ⟨.thrown msg, none, true, true⟩
        | .ok n =>
          let sd := jsGetD data "start_date"
          let ed := jsGetD data "end_date"
          let cacheKey := farmId ++ "_" ++
            (if truthy sd then jsToString sd else "auto") ++ "_" ++
            (if truthy ed then jsToString ed else "auto")
          ⟨.fromBackend n,
            some (cacheKey,
              .obj [("_cached_at_ts", .num ((⌊now / 1000⌋ : ℤ) : ℚ)),
                ("response", data)]),
            true, true⟩
  else ⟨.noCoords, none, false, false⟩

/-- The insights loader (FarmInsights.js 175-264): serve the best matching
entry
of the shared IndexedDB cache, else fall back to the backend. -/
def loadForFarm (dateParse : String → Option ℚ) (farmId : String)
    (savedCache farmCoordinates data : JSVal) (now : ℚ) : LoadResult :=
  if truthy savedCache && (typeofJS savedCache == "object") then
    let cands := candsOf farmId savedCache
    if cands.isEmpty then loadBackend farmId farmCoordinates data now
    else
      let bestKey := (pickBestKey dateParse savedCache cands).1
      let cachedEntry := jsGetD savedCache bestKey
      if truthy cachedEntry then
        let src :=
          if truthy (jsGetD cachedEntry "response") then
            jsGetD cachedEntry "response"
          else cachedEntry
        match normalizeAnalytics src with
        | .error msg => ⟨.thrown msg, none, false, true⟩
        | .ok n => ⟨.fromCache bestKey n, none, false, true⟩
      else loadBackend farmId farmCoordinates data now
  else loadBackend farmId farmCoordinates data now

/-- A map-displayable point: resolved coordinates (`none` = NaN, filtered
out downstream), the moisture value and the date. -/
structure VisPoint : Type where
  lat : Option ℚ
  lng : Option ℚ
  moisture : JSVal
  date : JSVal

/-- Branch 1 point mapper (lines 278-282):
the latitude from `lat`, `latitude` or index 1, the longitude likewise,
the moisture as the number coercion of `moisture`, `value`, `m` or `null`,
and the date from `date` or `timestamp`.  The first access throws on a
nullish `p`. -/
def smPoint (p : JSVal) : Except String VisPoint := do
  let lat0 ← jsGet p "lat"
  let latv := coalesce lat0 (coalesce (jsGetD p "latitude") (jsGetD p "1"))
  let lngv := coalesce (jsGetD p "lng")
    (coalesce (jsGetD p "longitude") (jsGetD p "0"))
  let m := coalesce (jsGetD p "moisture")
    (coalesce (jsGetD p "value") (coalesce (jsGetD p "m") .null))
  let dt := coalesce (jsGetD p "date") (coalesce (jsGetD p "timestamp") .null)
  pure ⟨toNumber latv, toNumber lngv, jsNum (toNumber m), dt⟩

/-- Branch 2 point mapper (lines 289-293), with the `location` optional
chain. -/
def ssPoint (s : JSVal) : Except String VisPoint := do
  let lat0 ← jsGet s "lat"
  let loc := jsGetD s "location"
  let latv := coalesce lat0 (coalesce (jsGetD s "latitude")
    (coalesce (if nullish loc then .undefined else jsGetD loc "lat") .null))
  let lngv := coalesce (jsGetD s "lng") (coalesce (jsGetD s "longitude")
    (coalesce (if nullish loc then .undefined else jsGetD loc "lng") .null))
  let m := coalesce (jsGetD s "moisture") (coalesce (jsGetD s "value")
    (coalesce (jsGetD s "moisture_value") .null))
  let dt := coalesce (jsGetD s "date") (coalesce (jsGetD s "sample_date") .null)
  pure ⟨toNumber latv, toNumber lngv, jsNum (toNumber m), dt⟩

/-- Centroid of a vertex list (FarmInsights.js 46-51): unweighted mean. -/
def centroidOfLatLngs (ps : List (ℚ × ℚ)) : Option (ℚ × ℚ) :=
  match ps with
  | [] => none
  | _ =>
    some ((ps.map Prod.fst).sum / ps.length, (ps.map Prod.snd).sum / ps.length)

/-- The per-sample moisture extraction of the centroid fallback
(lines 303-314). -/
def moistVal (d : JSVal) : Except String (Option ℚ) :=
  if typeofJS d = "number" then
    .ok (match d with
      | .num q => some q
      | _ => none)
  else if nullish d then .ok none
  else do
    let hm ← hasProp "moisture" d
    if hm then pure (toNumber (jsGetD d "moisture"))
    else
      let hv ← hasProp "value" d
      if hv then pure (toNumber (jsGetD d "value"))
      else pure (firstNumericNonDate d)

/-- The visualization point deriver (FarmInsights.js 272-319).
`polygonPositions` is the
memoised `normalizeToLatLngArray(farm.coordinates)` the closure reads. -/
def soilPoints (analytics farm : JSVal) (polygonPositions : List (ℚ × ℚ)) :
    Except String (List VisPoint) :=
  if truthy analytics = false && truthy farm = false then .ok []
  else
    match (if nullish analytics then JSVal.undefined
           else jsGetD analytics "soil_moisture_points") with
    | .arr xs => do
      let ps ← mapME smPoint xs
      pure (ps.filter (fun pt => pt.lat.isSome && pt.lng.isSome))
    | _ =>
      match (if nullish analytics then JSVal.undefined
             else jsGetD analytics "soil_samples") with
      | .arr ys => do
        let ps ← mapME ssPoint ys
        pure (ps.filter (fun pt => pt.lat.isSome && pt.lng.isSome))
      | _ =>
        match centroidOfLatLngs polygonPositions with
        | none => .ok []
        | some c => do
          let arrv := coalesce
            (if nullish analytics then .undefined
             else jsGetD analytics "soil_moisture")
            (coalesce
              (if nullish analytics then .undefined
               else jsGetD analytics "soil_moisture_timeseries") (.arr []))
          let seriesAvg ←
            match arrv with
            | .arr xs =>
              if xs.isEmpty then pure (none : Option ℚ)
              else do
                let vals0 ← mapME moistVal xs
                let vals := vals0.filterMap id
                if vals.isEmpty then pure (none : Option ℚ)
                else pure (some (vals.sum / vals.length))
            | _ => pure (none : Option ℚ)
          let smv := if nullish analytics then JSVal.undefined
            else jsGetD analytics "soil_moisture"
          let mAvg :=
            match seriesAvg with
            | some q => JSVal.num q
            | none => if typeofJS smv = "number" then smv else JSVal.null
          pure [⟨some c.1, some c.2, mAvg, .null⟩]

/-- Specification-side reading of a candidate entry's usable timestamp:
present exactly when the entry is truthy and its stamp is a finite nonzero
number (a zero or NaN stamp is falsy in the `if (stamp && ...)` guard). -/
def effStamp (dateParse : String → Option ℚ) (store : JSVal) (k : String) :
    Option ℚ :=
  let val := jsGetD store k
  if truthy val = false then none
  else
    match stampOf dateParse val with
    | .fin q => if q = 0 then none else some q
    | _ => none

def stampGe (s : Stamp) (q : ℚ) : Prop := ∃ qb, s = .fin qb ∧ q ≤ qb

def goodBest (dateParse : String → Option ℚ) (store : JSVal)
    (b : String × Stamp) : Prop :=
  b.2 = .negInf ∨ ∃ qb, b.2 = .fin qb ∧ effStamp dateParse store b.1 = some qb

/-- C10 counterexample: an entry whose `_cached_at_ts` is `0` (epoch
seconds 0, a perfectly parseable timestamp) is skipped by the truthiness
guard, so the chooser returns the first candidate key instead of the only
entry with a timestamp. -/
def c10CexStore : JSVal :=
  .obj [("f_a", .obj []), ("f_b", .obj [("_cached_at_ts", .num 0)])]

/-- C10 witness: with two timestamped entries for the farm, the chooser
picks a candidate key of that farm. -/
def c10Store : JSVal :=
  .obj [("g_1", .obj [("_cached_at_ts", .num 5)]),
    ("g_2", .obj [("_cached_at_ts", .num 9)])]

theorem swapPair_enc (p : ℚ × ℚ) :
    swapPair (encPair p) = .ok (.arr [.num p.2, .num p.1]) := rfl

theorem keepPair_enc (p : ℚ × ℚ) :
    keepPair (encPair p) = .ok (.arr [.num p.1, .num p.2]) := rfl

theorem mapM_swapPair_enc (ps : List (ℚ × ℚ)) :
    mapME swapPair (ps.map encPair) =
      .ok (ps.map (fun p => JSVal.arr [.num p.2, .num p.1])) := by
  induction ps with
  | nil => rfl
  | cons p ps ih =>
    simp only [mapME, swapPair_enc, ih]
    rfl

theorem mapM_keepPair_enc (ps : List (ℚ × ℚ)) :
    mapME keepPair (ps.map encPair) = .ok (ps.map encPair) := by
  induction ps with
  | nil => rfl
  | cons p ps ih =>
    simp only [mapME, keepPair_enc, ih]
    rfl

/-- C1: for a non-empty array of 2-element numeric pairs, `parseCoords`
inspects only the first pair `(a, b)`: when `-90 ≤ a ≤ 90` and
`-180 ≤ b ≤ 180` every pair of the sequence is swapped to `(lng, lat)`
order, otherwise every pair is returned unchanged. -/
theorem parseCoords_numeric_pair_heuristic (jp : String → Option JSVal)
    (fuel : Nat) (a b : ℚ) (rest : List (ℚ × ℚ)) :
    parseCoords jp fuel (.arr (((a, b) :: rest).map encPair)) =
      .ok (.arr (if -90 ≤ a ∧ a ≤ 90 ∧ -180 ≤ b ∧ b ≤ 180
        then ((a, b) :: rest).map (fun p => JSVal.arr [.num p.2, .num p.1])
        else ((a, b) :: rest).map encPair)) := by
  have hhead : ((a, b) :: rest).map encPair =
      encPair (a, b) :: rest.map encPair := rfl
  rw [parseCoords, hhead]
  simp only [truthy]
  rw [if_neg (by simp)]
  rw [parseCoordsArr]
  have h0 : toNumber (jsGetD (JSVal.arr [JSVal.num a, JSVal.num b]) "0") = some a := rfl
  have h1 : toNumber (jsGetD (JSVal.arr [JSVal.num a, JSVal.num b]) "1") = some b := rfl
  simp only [encPair, isArrayJS, h0, h1]
  have hs := mapM_swapPair_enc ((a, b) :: rest)
  have hk := mapM_keepPair_enc ((a, b) :: rest)
  rw [hhead] at hs hk
  simp only [encPair] at hs hk
  by_cases hc : -90 ≤ a ∧ a ≤ 90 ∧ -180 ≤ b ∧ b ≤ 180
  · rw [if_pos hc, if_pos hc, hs]
    rfl
  · rw [if_neg hc, if_neg hc, hk]
    rfl

/-- C1 witness: the documented boundary input whose first pair is
`(172, 40)` is returned unchanged. -/
theorem parseCoords_numeric_pair_heuristic_witness :
    parseCoords jpNone 1 (.arr [.arr [.num 172, .num 40]]) =
      .ok (.arr [.arr [.num 172, .num 40]]) := by
  have h := parseCoords_numeric_pair_heuristic jpNone 1 172 40 []
  norm_num at h
  exact h

theorem isArrayJS_of_not_object {v : JSVal} (h : typeofJS v ≠ "object") :
    isArrayJS v = false := by
  cases v <;> simp_all [typeofJS, isArrayJS]

/-- C6 counterexample: the array `[5]` is of unrecognized shape, yet the
resolver returns it unchanged instead of an empty sequence. -/
theorem parseCoords_unrecognized_array_passthrough :
    parseCoords jpNone 1 (.arr [.num 5]) = .ok (.arr [.num 5]) ∧
    parseCoords jpNone 1 (.arr [.num 5]) ≠ .ok (.arr []) := by
  constructor
  · rfl
  · intro h
    rw [show parseCoords jpNone 1 (.arr [.num 5]) = .ok (.arr [.num 5]) from rfl] at h
    simp at h

/-- C6 amended: the resolver yields an empty sequence for every input that
is neither a string, nor an array, nor a latitude/longitude point object;
an array whose first element is not typeof-object is returned unchanged;
the empty array yields the empty sequence. -/
theorem parseCoords_unparseable_amended (jp : String → Option JSVal) (fuel : Nat) :
    (∀ v, typeofJS v ≠ "string" → isArrayJS v = false →
      (∀ fs, v = JSVal.obj fs →
        ((fs.any (fun p => p.1 == "latitude")) &&
         (fs.any (fun p => p.1 == "longitude"))) = false) →
      parseCoords jp fuel v = .ok (.arr []))
    ∧ (∀ x0 rest, typeofJS x0 ≠ "object" →
      parseCoords jp fuel (.arr (x0 :: rest)) = .ok (.arr (x0 :: rest)))
    ∧ parseCoords jp fuel (.arr []) = .ok (.arr []) := by
  refine ⟨?_, ?_, by rw [parseCoords] <;> simp [truthy, parseCoordsArr]⟩
  · intro v hstr harr hobj
    cases v with
    | null => rw [parseCoords] <;> simp
    | undefined => rw [parseCoords] <;> simp
    | nan => rw [parseCoords] <;> simp
    | bool b => cases b <;> (rw [parseCoords] <;> simp)
    | num q => rw [parseCoords] <;> simp
    | str s => simp [typeofJS] at hstr
    | arr xs => simp [isArrayJS] at harr
    | obj fs => rw [parseCoords] <;> simp [truthy, hobj fs rfl]
  · intro x0 rest h
    rw [parseCoords]
    rw [if_neg (by simp [truthy])]
    rw [parseCoordsArr]
    rw [isArrayJS_of_not_object h]
    rw [if_neg (by simp : ¬(false = true))]
    rw [parseCoordsArrObj, if_neg h]

/-- C6 witness: a truthy primitive yields the empty sequence, and an array
of unrecognized shape is returned unchanged. -/
theorem parseCoords_unparseable_amended_witness :
    parseCoords jpNone 1 (.num 7) = .ok (.arr []) ∧
    parseCoords jpNone 1 (.arr [.num 5]) = .ok (.arr [.num 5]) := by
  constructor
  · exact (parseCoords_unparseable_amended jpNone 1).1 (.num 7)
      (by simp [typeofJS]) (by simp [isArrayJS]) (by intro fs h; simp at h)
  · exact (parseCoords_unparseable_amended jpNone 1).2.1 (.num 5) []
      (by simp [typeofJS])

/-- C3: for every sample of the three temperature-like families whose value
resolves to a number `v`, the normalizer outputs `v - 273.15` when
`v > 100` and `v` unchanged otherwise, under the family's canonical key. -/
theorem normalizer_kelvin_heuristic :
    (∀ d v, truthy d = true → tempResolve d = .ok (some v) →
      tempSample d = .ok (.obj [("date", jsGetD d "date"),
        ("temp", .num (if v > 100 then v - 273.15 else v))]))
    ∧ (∀ d v, truthy d = true → hasProp "soil_temp" d = .ok true →
      toNumber (jsGetD d "soil_temp") = some v →
      soilTempSample d = .ok (.obj [("date", jsGetD d "date"),
        ("soil_temp", .num (if v > 100 then v - 273.15 else v))]))
    ∧ (∀ d v, truthy d = true → hasProp "soil_temp" d = .ok false →
      soilResolve d = .ok (some v) →
      soilTempSample d = .ok (.obj [("date", jsGetD d "date"),
        ("soil_temp", .num (if v > 100 then v - 273.15 else v))]))
    ∧ (∀ d v, truthy d = true → canopyResolve d = .ok (some v) →
      canopySample d = .ok (.obj [("date", jsGetD d "date"),
        ("canopy_temp", .num (if v > 100 then v - 273.15 else v))])) := by
  refine ⟨?_, ?_, ?_, ?_⟩
  · intro d v hd hres
    simp only [tempSample, hd, hres]
    rfl
  · intro d v hd hs hn
    simp only [soilTempSample, hd, hs, hn]
    rfl
  · intro d v hd hs hres
    simp only [soilTempSample, hd, hs, hres]
    rfl
  · intro d v hd hres
    simp only [canopySample, hd, hres]
    rfl

/-- C3 witness: a temperature sample of value 300 becomes 26.85 and one of
value 25 is unchanged. -/
theorem normalizer_kelvin_heuristic_witness :
    tempSample (.obj [("date", .str "2025-01-01"), ("temp", .num 300)]) =
      .ok (.obj [("date", .str "2025-01-01"), ("temp", .num 26.85)]) ∧
    tempSample (.obj [("date", .str "2025-01-01"), ("temp", .num 25)]) =
      .ok (.obj [("date", .str "2025-01-01"), ("temp", .num 25)]) := by
  constructor
  · have h := normalizer_kelvin_heuristic.1
      (.obj [("date", .str "2025-01-01"), ("temp", .num 300)]) 300 rfl rfl
    rw [h]
    norm_num
    rfl
  · have h := normalizer_kelvin_heuristic.1
      (.obj [("date", .str "2025-01-01"), ("temp", .num 25)]) 25 rfl rfl
    rw [h]
    norm_num
    rfl

theorem mem_of_lookup {fs : List (String × JSVal)} {k : String} {v : JSVal}
    (h : List.lookup k fs = some v) : (k, v) ∈ fs := by
  induction fs with
  | nil => simp [List.lookup] at h
  | cons p t ih =>
    obtain ⟨k1, v1⟩ := p
    by_cases hk : k = k1
    · subst hk
      simp [List.lookup] at h
      cases h
      exact List.mem_cons_self _ _
    · have hb1 : (k == k1) = false := beq_eq_false_iff_ne.mpr hk
      simp only [List.lookup, hb1] at h
      exact List.mem_cons_of_mem _ (ih h)

theorem anyKey_false_of_lookup_none {fs : List (String × JSVal)} {k : String}
    (h : List.lookup k fs = none) : fs.any (fun p => p.1 == k) = false := by
  induction fs with
  | nil => rfl
  | cons p t ih =>
    obtain ⟨k1, v1⟩ := p
    by_cases hk : k = k1
    · subst hk
      simp [List.lookup] at h
    · have hb1 : (k == k1) = false := beq_eq_false_iff_ne.mpr hk
      have hb2 : (k1 == k) = false := beq_eq_false_iff_ne.mpr (Ne.symm hk)
      simp only [List.lookup, hb1] at h
      simp [hb2, ih h]

theorem toNumber_objGetD_none {fs : List (String × JSVal)}
    (hf : ∀ p ∈ fs, p.1 ≠ "date" → toNumber p.2 = none)
    (k : String) (hk : k ≠ "date") : toNumber (objGetD fs k) = none := by
  unfold objGetD
  cases hl : List.lookup k fs with
  | none => rfl
  | some v =>
    have hmem : (k, v) ∈ fs := mem_of_lookup hl
    simpa using hf (k, v) hmem hk

theorem firstNumericLoop_none_of (d : JSVal)
    (h : ∀ k, k ≠ "date" → toNumber (jsGetD d k) = none) :
    ∀ ks, firstNumericLoop d ks = none := by
  intro ks
  induction ks with
  | nil => rfl
  | cons k t ih =>
    rw [firstNumericLoop]
    by_cases hk : k = "date"
    · rw [if_pos hk]; exact ih
    · rw [if_neg hk, h k hk]; exact ih

/-- C7 counterexample: a temperature sample with no matching field and no
numeric field is returned unchanged — no canonical `temp` key is added, so
its value is absent (`undefined` on access) rather than `null`. -/
theorem tempSample_missing_value_not_null :
    tempSample (.obj [("date", .str "2025-01-01"), ("note", .str "dry")]) =
      .ok (.obj [("date", .str "2025-01-01"), ("note", .str "dry")]) ∧
    jsGetD (.obj [("date", .str "2025-01-01"), ("note", .str "dry")]) "temp" =
      JSVal.undefined := ⟨rfl, rfl⟩

/-- C7 amended: with no accepted field name and no numeric non-`date` field,
the soil-temperature, canopy-temperature and rainfall mappers output
`date` plus a `null` canonical value, while the temperature mapper returns
the sample object unchanged. -/
theorem normalizer_null_sample_amended (fs : List (String × JSVal))
    (hf : ∀ p ∈ fs, p.1 ≠ "date" → toNumber p.2 = none)
    (h1 : List.lookup "temp" fs = none)
    (h2 : List.lookup "temperature" fs = none)
    (h3 : List.lookup "soil_temp" fs = none)
    (h4 : List.lookup "st" fs = none)
    (h5 : List.lookup "canopy_temp" fs = none)
    (h6 : List.lookup "rain_mm" fs = none)
    (h7 : List.lookup "rain" fs = none) :
    tempSample (.obj fs) = .ok (.obj fs) ∧
    soilTempSample (.obj fs) =
      .ok (.obj [("date", objGetD fs "date"), ("soil_temp", .null)]) ∧
    canopySample (.obj fs) =
      .ok (.obj [("date", objGetD fs "date"), ("canopy_temp", .null)]) ∧
    rainSample (.obj fs) =
      .ok (.obj [("date", objGetD fs "date"), ("rain_mm", .null)]) := by
  have hnum : ∀ k, k ≠ "date" → toNumber (jsGetD (.obj fs) k) = none := by
    intro k hk
    exact toNumber_objGetD_none hf k hk
  have hloop : firstNumericNonDate (.obj fs) = none :=
    firstNumericLoop_none_of _ hnum _
  have e1 : hasProp "temp" (.obj fs) = .ok false := by
    rw [show hasProp "temp" (JSVal.obj fs) =
      .ok (fs.any (fun p => p.1 == "temp")) from rfl,
      anyKey_false_of_lookup_none h1]
  have e2 : hasProp "temperature" (.obj fs) = .ok false := by
    rw [show hasProp "temperature" (JSVal.obj fs) =
      .ok (fs.any (fun p => p.1 == "temperature")) from rfl,
      anyKey_false_of_lookup_none h2]
  have e3 : hasProp "soil_temp" (.obj fs) = .ok false := by
    rw [show hasProp "soil_temp" (JSVal.obj fs) =
      .ok (fs.any (fun p => p.1 == "soil_temp")) from rfl,
      anyKey_false_of_lookup_none h3]
  have e4 : hasProp "st" (.obj fs) = .ok false := by
    rw [show hasProp "st" (JSVal.obj fs) =
      .ok (fs.any (fun p => p.1 == "st")) from rfl,
      anyKey_false_of_lookup_none h4]
  have e5 : hasProp "canopy_temp" (.obj fs) = .ok false := by
    rw [show hasProp "canopy_temp" (JSVal.obj fs) =
      .ok (fs.any (fun p => p.1 == "canopy_temp")) from rfl,
      anyKey_false_of_lookup_none h5]
  have e6 : hasProp "rain_mm" (.obj fs) = .ok false := by
    rw [show hasProp "rain_mm" (JSVal.obj fs) =
      .ok (fs.any (fun p => p.1 == "rain_mm")) from rfl,
      anyKey_false_of_lookup_none h6]
  have e7 : hasProp "rain" (.obj fs) = .ok false := by
    rw [show hasProp "rain" (JSVal.obj fs) =
      .ok (fs.any (fun p => p.1 == "rain")) from rfl,
      anyKey_false_of_lookup_none h7]
  have r1 : tempResolve (.obj fs) = .ok none := by
    simp only [tempResolve, e1, e2, hloop]
    rfl
  have r2 : soilResolve (.obj fs) = .ok none := by
    simp only [soilResolve, e4, hloop]
    rfl
  have r3 : canopyResolve (.obj fs) = .ok none := by
    simp only [canopyResolve, e5, hloop]
    rfl
  refine ⟨?_, ?_, ?_, ?_⟩
  · rw [tempSample, if_neg (by simp [truthy]), r1]
    rfl
  · rw [soilTempSample, if_neg (by simp [truthy]), e3, r2]
    rfl
  · rw [canopySample, if_neg (by simp [truthy]), r3]
    rfl
  · rw [rainSample, if_neg (by simp [truthy]), e6, e7, hloop]
    rfl

/-- C7 witness: a sample with only a `date` and a non-numeric note becomes
a dated `null` soil-temperature sample, but passes through unchanged for
the temperature family. -/
theorem normalizer_null_sample_amended_witness :
    soilTempSample (.obj [("date", .str "d"), ("note", .str "x")]) =
      .ok (.obj [("date", .str "d"), ("soil_temp", .null)]) ∧
    tempSample (.obj [("date", .str "d"), ("note", .str "x")]) =
      .ok (.obj [("date", .str "d"), ("note", .str "x")]) := by
  have h := normalizer_null_sample_amended [("date", .str "d"), ("note", .str "x")]
    (by
      intro p hp hne
      simp only [List.mem_cons, List.not_mem_nil, or_false] at hp
      rcases hp with h | h
      · rw [h] at hne; exact absurd rfl hne
      · rw [h]; rfl)
    rfl rfl rfl rfl rfl rfl rfl
  exact ⟨by rw [h.2.1]; rfl, h.1⟩

theorem lookup_append (k : String) (fs gs : List (String × JSVal))
    (h : List.lookup k fs = none) :
    List.lookup k (fs ++ gs) = List.lookup k gs := by
  induction fs with
  | nil => rfl
  | cons p t ih =>
    obtain ⟨k1, v1⟩ := p
    by_cases hk : k = k1
    · subst hk
      simp [List.lookup] at h
    · have hb1 : (k == k1) = false := beq_eq_false_iff_ne.mpr hk
      simp only [List.lookup, hb1] at h
      simp only [List.cons_append, List.lookup, hb1]
      exact ih h

theorem objGetD_none {fs : List (String × JSVal)} {k : String}
    (h : List.lookup k fs = none) : objGetD fs k = .undefined := by
  unfold objGetD
  rw [h]
  rfl

theorem objSet_append_absent (fs gs : List (String × JSVal)) (k : String)
    (v : JSVal) (h1 : List.lookup k fs = none)
    (h2 : gs.any (fun p => p.1 == k) = false) :
    objSet (fs ++ gs) k v = fs ++ (gs ++ [(k, v)]) := by
  rw [objSet, if_neg]
  · simp
  · simp [List.any_append, anyKey_false_of_lookup_none h1, h2]

theorem except_bind_ok {α β : Type} (a : α) (f : α → Except String β) :
    (Except.ok a >>= f : Except String β) = f a := rfl

theorem familyPass_absent (fs gs : List (String × JSVal)) (key : String)
    (f : JSVal → Except String JSVal)
    (h1 : List.lookup key fs = none) (h2 : List.lookup key gs = none) :
    familyPass (fs ++ gs) key f = .ok (fs ++ (gs ++ [(key, .arr [])])) := by
  have hU : objGetD (fs ++ gs) key = .undefined := by
    unfold objGetD
    rw [lookup_append _ _ _ h1, h2]
    rfl
  rw [familyPass, hU]
  rw [objSet_append_absent fs gs key _ h1 (anyKey_false_of_lookup_none h2)]
  rfl

theorem foldl_ensure_absent (fs : List (String × JSVal)) :
    ∀ (keys : List String) (gs : List (String × JSVal)), keys.Nodup →
    (∀ k ∈ keys, List.lookup k fs = none) →
    (∀ k ∈ keys, List.lookup k gs = none) →
    keys.foldl
      (fun o k => if isArrayJS (objGetD o k) then o else objSet o k (.arr []))
      (fs ++ gs) = fs ++ (gs ++ keys.map ea) := by
  intro keys
  induction keys with
  | nil => intro gs _ _ _; simp
  | cons k rest ih =>
    intro gs hnd hfs hgs
    have hkfs := hfs k (List.mem_cons_self _ _)
    have hkgs := hgs k (List.mem_cons_self _ _)
    have hU : objGetD (fs ++ gs) k = .undefined := by
      unfold objGetD
      rw [lookup_append _ _ _ hkfs, hkgs]
      rfl
    rw [List.foldl_cons, hU]
    rw [if_neg (by simp [isArrayJS])]
    rw [objSet_append_absent fs gs k (JSVal.arr []) hkfs (anyKey_false_of_lookup_none hkgs)]
    have hgs2 : ∀ k2 ∈ rest, List.lookup k2 (gs ++ [(k, JSVal.arr [])]) = none := by
      intro k2 hk2
      rw [lookup_append _ _ _ (hgs k2 (List.mem_cons_of_mem _ hk2))]
      have hne : k2 ≠ k := by
        intro he
        subst he
        exact (List.nodup_cons.mp hnd).1 hk2
      simp [List.lookup, beq_eq_false_iff_ne.mpr hne]
    have hstep := ih (gs ++ [(k, JSVal.arr [])]) (List.Nodup.of_cons hnd)
      (fun k2 hk2 => hfs k2 (List.mem_cons_of_mem _ hk2)) hgs2
    rw [hstep]
    simp [ea]

/-- C4: on an input object carrying none of the expected metric keys, every
fixed metric-family key is present as an empty array, `soil_profile` is the
empty mapping, and `alerts` is `(frost, heat)` with empty lists. -/
theorem normalizer_total_coverage (fs : List (String × JSVal))
    (hk : ∀ k ∈ normalizerInputKeys, List.lookup k fs = none) :
    ∃ out, normalizeAnalytics (.obj fs) = .ok (.obj out) ∧
      (∀ k ∈ metricFamilyKeys, objGetD out k = .arr []) ∧
      objGetD out "soil_profile" = .obj [] ∧
      objGetD out "alerts" = .obj [("frost", .arr []), ("heat", .arr [])] := by
  have hT : List.lookup "temperature" fs = none := hk _ (by simp [normalizerInputKeys, expectedArrays])
  have hR : List.lookup "rainfall" fs = none := hk _ (by simp [normalizerInputKeys, expectedArrays])
  have hST : List.lookup "soil_temperature" fs = none := hk _ (by simp [normalizerInputKeys, expectedArrays])
  have hCT : List.lookup "canopy_temperature" fs = none := hk _ (by simp [normalizerInputKeys, expectedArrays])
  have hW : List.lookup "weather" fs = none := hk _ (by simp [normalizerInputKeys, expectedArrays])
  have hS : List.lookup "soil" fs = none := hk _ (by simp [normalizerInputKeys, expectedArrays])
  have hSP : List.lookup "soil_profile" fs = none := hk _ (by simp [normalizerInputKeys, expectedArrays])
  have hAl : List.lookup "alerts" fs = none := hk _ (by simp [normalizerInputKeys, expectedArrays])
  have hWU : objGetD fs "weather" = .undefined := objGetD_none hW
  have hSU : objGetD fs "soil" = .undefined := objGetD_none hS
  have p1 : promote fs "temperature" "weather" "temperature" = fs := by
    simp [promote, hWU, truthy]
  have p2 : promote fs "rainfall" "weather" "rainfall" = fs := by
    simp [promote, hWU, truthy]
  have p3 : promote fs "soil_moisture" "soil" "moisture" = fs := by
    simp [promote, hSU, truthy]
  have p4 : promote fs "soil_temperature" "soil" "temperature" = fs := by
    simp [promote, hSU, truthy]
  have f1 : familyPass fs "temperature" tempSample =
      .ok (fs ++ [ea "temperature"]) := by
    simpa [ea] using familyPass_absent fs [] "temperature" tempSample hT rfl
  have f2 : familyPass (fs ++ [ea "temperature"]) "soil_temperature"
      soilTempSample = .ok (fs ++ [ea "temperature", ea "soil_temperature"]) := by
    simpa [ea] using familyPass_absent fs [ea "temperature"] "soil_temperature"
      soilTempSample hST (by rfl)
  have f3 : familyPass (fs ++ [ea "temperature", ea "soil_temperature"])
      "canopy_temperature" canopySample =
      .ok (fs ++ [ea "temperature", ea "soil_temperature",
        ea "canopy_temperature"]) := by
    simpa [ea] using familyPass_absent fs
      [ea "temperature", ea "soil_temperature"] "canopy_temperature"
      canopySample hCT (by rfl)
  have f4 : familyPass (fs ++ [ea "temperature", ea "soil_temperature",
      ea "canopy_temperature"]) "rainfall" rainSample =
      .ok (fs ++ g4C4) := by
    simpa [ea, g4C4] using familyPass_absent fs
      [ea "temperature", ea "soil_temperature", ea "canopy_temperature"]
      "rainfall" rainSample hR (by rfl)
  have hnodup : expectedArrays.Nodup := by simp [expectedArrays]
  have hfsE : ∀ k ∈ expectedArrays, List.lookup k fs = none := by
    intro k hk2
    exact hk k (List.mem_append_right _ hk2)
  have hg4E : ∀ k ∈ expectedArrays, List.lookup k g4C4 = none := by
    intro k hk2
    fin_cases hk2 <;> rfl
  have fold1 : expectedArrays.foldl
      (fun o k => if isArrayJS (objGetD o k) then o else objSet o k (.arr []))
      (fs ++ g4C4) = fs ++ g5C4 := by
    rw [foldl_ensure_absent fs expectedArrays g4C4 hnodup hfsE hg4E]
    rfl
  have hSPU : objGetD (fs ++ g5C4) "soil_profile" = .undefined := by
    unfold objGetD
    rw [lookup_append _ _ _ hSP]
    rfl
  have hSoilU : objGetD (fs ++ g5C4) "soil" = .undefined := by
    unfold objGetD
    rw [lookup_append _ _ _ hS]
    rfl
  have s6 : objSet (fs ++ g5C4) "soil_profile" (.obj []) = fs ++ g6C4 := by
    rw [objSet_append_absent fs g5C4 "soil_profile" (.obj []) hSP (by rfl)]
    rfl
  have hAlU : objGetD (fs ++ g6C4) "alerts" = .undefined := by
    unfold objGetD
    rw [lookup_append _ _ _ hAl]
    rfl
  have s7 : objSet (fs ++ g6C4) "alerts"
      (.obj [("frost", .arr []), ("heat", .arr [])]) = fs ++ c4Suffix := by
    rw [objSet_append_absent fs g6C4 "alerts" _ hAl (by rfl)]
    rfl
  have hmain : normalizeAnalytics (.obj fs) = .ok (.obj (fs ++ c4Suffix)) := by
    rw [normalizeAnalytics, if_neg (by simp [truthy, typeofJS])]
    simp only [spreadFields]
    simp only [p1, p2, p3, p4]
    simp only [f1, except_bind_ok]
    simp only [f2, except_bind_ok]
    simp only [f3, except_bind_ok]
    simp only [f4, except_bind_ok]
    simp only [fold1]
    simp only [hSPU, hSoilU, truthy]
    simp only [Bool.false_eq_true, if_false]
    simp only [s6]
    simp only [hAlU, truthy]
    simp only [Bool.false_eq_true, if_false]
    simp only [s7]
    rfl
  refine ⟨fs ++ c4Suffix, hmain, ?_, ?_, ?_⟩
  · intro k hkm
    have hmem : k ∈ normalizerInputKeys := by
      fin_cases hkm <;> simp [normalizerInputKeys, expectedArrays]
    unfold objGetD
    rw [lookup_append _ _ _ (hk k hmem)]
    fin_cases hkm <;> rfl
  · unfold objGetD
    rw [lookup_append _ _ _ hSP]
    rfl
  · unfold objGetD
    rw [lookup_append _ _ _ hAl]
    rfl

/-- C4 witness: the theorem applied to an object with a single unrelated
key. -/
theorem normalizer_total_coverage_witness :
    ∃ out, normalizeAnalytics (.obj [("growth_stage", .str "vegetative")]) =
        .ok (.obj out) ∧
      (∀ k ∈ metricFamilyKeys, objGetD out k = .arr []) ∧
      objGetD out "soil_profile" = .obj [] ∧
      objGetD out "alerts" = .obj [("frost", .arr []), ("heat", .arr [])] :=
  normalizer_total_coverage [("growth_stage", .str "vegetative")]
    (by intro k hkm; fin_cases hkm <;> rfl)

/-- C2 counterexample: a cache state can hold `null` at the key (the
dashboard caches `normalizeAnalytics`, which is `null` for a non-object
response); the key is then present but the provider is still called. -/
theorem fetch_present_null_entry_refetches :
    (fetchAnalytics jpNone 1 "f" "s" "e" .null false [("f_s_e", .null)]
      (.obj [])).providerCalled = true ∧
    List.lookup "f_s_e" [(("f_s_e" : String), JSVal.null)] = some JSVal.null :=
  ⟨rfl, rfl⟩

/-- C2 amended: a cache hit with a truthy entry is served without any
provider call and leaves the cache unchanged; with `forceRefresh` the
provider is always called and, on a non-error response that normalizes,
the entry is overwritten unconditionally. -/
theorem fetch_cache_policy_amended (jp : String → Option JSVal) (fuel : Nat)
    (farmId startDate endDate : String) (coords : JSVal)
    (cache : List (String × JSVal)) (data cc v : JSVal)
    (hcp : parseCoords jp fuel coords = .ok cc)
    (hl : List.lookup (farmId ++ "_" ++ startDate ++ "_" ++ endDate) cache =
      some v)
    (ht : truthy v = true) :
    fetchAnalytics jp fuel farmId startDate endDate coords false cache data =
      ⟨.servedFromCache v, cache, false, false⟩ ∧
    (fetchAnalytics jp fuel farmId startDate endDate coords true cache
      data).providerCalled = true ∧
    (∀ e n, jsGet data "error" = .ok e → truthy e = false →
      normalizeAnalytics data = .ok n →
      (fetchAnalytics jp fuel farmId startDate endDate coords true cache
        data).cacheAfter =
        objSet cache (farmId ++ "_" ++ startDate ++ "_" ++ endDate) n) := by
  have hent : objGetD cache (farmId ++ "_" ++ startDate ++ "_" ++ endDate) = v := by
    unfold objGetD
    rw [hl]
    rfl
  refine ⟨?_, ?_, ?_⟩
  · simp [fetchAnalytics, hcp, hent, ht]
  · simp only [fetchAnalytics, hcp]
    rw [if_neg (by simp)]
    cases hE : jsGet data "error" with
    | error msg => simp [hE]
    | ok e =>
      by_cases hte : truthy e
      · simp [hE, hte]
      · cases hN : normalizeAnalytics data with
        | error msg => simp [hE, hte, hN]
        | ok n => simp [hE, hte, hN]
  · intro e n hE hte hN
    simp only [fetchAnalytics, hcp]
    rw [if_neg (by simp)]
    simp [hE, hte, hN]

/-- C2 witness: a populated truthy entry is served without a provider call,
and a forced refresh calls the provider anyway. -/
theorem fetch_cache_policy_amended_witness :
    fetchAnalytics jpNone 1 "f" "s" "e" .null false
        [("f_s_e", .obj [("x", .num 1)])] (.obj []) =
      ⟨.servedFromCache (.obj [("x", .num 1)]),
        [("f_s_e", .obj [("x", .num 1)])], false, false⟩ ∧
    (fetchAnalytics jpNone 1 "f" "s" "e" .null true
        [("f_s_e", .obj [("x", .num 1)])] (.obj [])).providerCalled = true := by
  have h := fetch_cache_policy_amended jpNone 1 "f" "s" "e" .null
    [("f_s_e", .obj [("x", .num 1)])] (.obj []) (.arr [])
    (.obj [("x", .num 1)]) rfl rfl rfl
  exact ⟨h.1, h.2.1⟩

/-- C5 counterexample: a provider response carrying `error: ""` (a falsy
error field) is treated as success — the normalizer runs and a cache entry
is written. -/
theorem fetch_falsy_error_field_cached :
    (fetchAnalytics jpNone 1 "f" "s" "e" .null false []
      (.obj [("error", .str "")])).normalizerRan = true ∧
    ((fetchAnalytics jpNone 1 "f" "s" "e" .null false []
      (.obj [("error", .str "")])).cacheAfter).map Prod.fst = ["f_s_e"] :=
  ⟨rfl, rfl⟩

/-- C5 amended: a provider response whose `error` field is truthy is
surfaced as a failure in both consumers, without running the normalizer and
without touching the cache store. -/
theorem provider_error_no_cache_amended :
    (∀ (jp : String → Option JSVal) (fuel : Nat)
      (farmId startDate endDate : String) (coords cc : JSVal)
      (forceRefresh : Bool) (cache : List (String × JSVal)) (data e : JSVal),
      parseCoords jp fuel coords = .ok cc →
      jsGet data "error" = .ok e → truthy e = true →
      (forceRefresh = true ∨
        truthy (objGetD cache (farmId ++ "_" ++ startDate ++ "_" ++ endDate)) =
          false) →
      fetchAnalytics jp fuel farmId startDate endDate coords forceRefresh
        cache data = ⟨.backendError e, cache, true, false⟩) ∧
    (∀ (dateParse : String → Option ℚ) (farmId : String)
      (savedCache farmCoordinates data e : JSVal) (now : ℚ),
      truthy savedCache = false →
      truthy farmCoordinates = true →
      truthy (jsGetD farmCoordinates "length") = true →
      jsGet data "error" = .ok e → truthy e = true →
      loadForFarm dateParse farmId savedCache farmCoordinates data now =
        ⟨.backendError e, none, true, false⟩) := by
  constructor
  · intro jp fuel farmId startDate endDate coords cc forceRefresh cache data e
      hcp hE hte hmiss
    simp only [fetchAnalytics, hcp]
    rw [if_neg (by
      rcases hmiss with h | h
      · simp [h]
      · simp [h])]
    simp [hE, hte]
  · intro dateParse farmId savedCache farmCoordinates data e now hs hc hcl hE hte
    rw [loadForFarm, if_neg (by simp [hs])]
    rw [loadBackend, if_pos (by simp [hc, hcl])]
    simp [hE, hte]

/-- C5 witness: a truthy provider error is surfaced by both consumers with
no cache write. -/
theorem provider_error_no_cache_amended_witness :
    fetchAnalytics jpNone 1 "f" "s" "e" .null true []
        (.obj [("error", .str "boom")]) =
      ⟨.backendError (.str "boom"), [], true, false⟩ ∧
    loadForFarm (fun _ => none) "f" .null (.arr [.num 1])
        (.obj [("error", .str "boom")]) 0 =
      ⟨.backendError (.str "boom"), none, true, false⟩ := by
  constructor
  · exact provider_error_no_cache_amended.1 jpNone 1 "f" "s" "e" .null
      (.arr []) true [] (.obj [("error", .str "boom")]) (.str "boom")
      rfl rfl rfl (Or.inl rfl)
  · exact provider_error_no_cache_amended.2 (fun _ => none) "f" .null
      (.arr [.num 1]) (.obj [("error", .str "boom")]) (.str "boom") 0
      rfl rfl rfl rfl rfl

/-- C8: a per-point soil-moisture sample with coordinates but no resolvable
moisture value is kept in the output, but its moisture is the number `0`
(`Number(undefined ?? null)` is `0`), not `null` as specified. -/
theorem soilPoints_missing_moisture_is_zero :
    soilPoints
        (.obj [("soil_moisture_points",
          .arr [.obj [("lat", .num 10), ("lng", .num 20)]])]) .null [] =
      .ok [⟨some 10, some 20, .num 0, .null⟩] ∧
    (JSVal.num 0 : JSVal) ≠ JSVal.null := by
  constructor
  · rfl
  · simp

/-- C9 counterexample: the dashboard writes the bare normalized analytics
object into the store — the written value has neither a `response` field
nor a `_cached_at_ts` timestamp. -/
theorem dashboard_cache_write_shape :
    ((fetchAnalytics jpNone 1 "f" "s" "e" .null true []
      (.obj [("growth_stage", .str "g")])).cacheAfter).map Prod.fst =
      ["f_s_e"] ∧
    (jsKeys (objGetD (fetchAnalytics jpNone 1 "f" "s" "e" .null true []
      (.obj [("growth_stage", .str "g")])).cacheAfter "f_s_e")).contains
      "response" = false ∧
    (jsKeys (objGetD (fetchAnalytics jpNone 1 "f" "s" "e" .null true []
      (.obj [("growth_stage", .str "g")])).cacheAfter "f_s_e")).contains
      "_cached_at_ts" = false :=
  ⟨rfl, rfl, rfl⟩

/-- C9 amended: the insights view writes wrapper entries holding a
`_cached_at_ts` field in epoch seconds
and a `response` field with the raw payload, while the dashboard view either leaves the
cache unchanged or stores the bare normalized analytics object under the
key directly. -/
theorem loadForFarm_written_cases (dateParse : String → Option ℚ)
    (farmId : String) (savedCache farmCoordinates data : JSVal) (now : ℚ) :
    (loadForFarm dateParse farmId savedCache farmCoordinates data
      now).written = none ∨
    (loadForFarm dateParse farmId savedCache farmCoordinates data
      now).written = (loadBackend farmId farmCoordinates data now).written := by
  unfold loadForFarm
  by_cases h1 : (truthy savedCache && typeofJS savedCache == "object") = true
  · rw [if_pos h1]
    by_cases h2 : (candsOf farmId savedCache).isEmpty = true
    · rw [if_pos h2]
      right
      rfl
    · rw [if_neg h2]
      by_cases h3 : truthy (jsGetD savedCache
          (pickBestKey dateParse savedCache (candsOf farmId savedCache)).1) = true
      · rw [if_pos h3]
        rcases hN : normalizeAnalytics
          (if truthy (jsGetD (jsGetD savedCache (pickBestKey dateParse
              savedCache (candsOf farmId savedCache)).1) "response") = true then
            jsGetD (jsGetD savedCache (pickBestKey dateParse savedCache
              (candsOf farmId savedCache)).1) "response"
          else jsGetD savedCache (pickBestKey dateParse savedCache
            (candsOf farmId savedCache)).1) with msg | n <;> simp [hN]
      · rw [if_neg h3]
        right
        rfl
  · rw [if_neg h1]
    right
    rfl

theorem loadBackend_written_shape (farmId : String) (farmCoordinates data : JSVal)
    (now : ℚ) :
    (loadBackend farmId farmCoordinates data now).written = none ∨
    ∃ key, (loadBackend farmId farmCoordinates data now).written =
      some (key, .obj [("_cached_at_ts", .num ((⌊now / 1000⌋ : ℤ) : ℚ)),
        ("response", data)]) := by
  unfold loadBackend
  repeat' split
  all_goals simp

theorem cache_entry_shape_amended :
    (∀ (dateParse : String → Option ℚ) (farmId : String)
      (savedCache farmCoordinates data : JSVal) (now : ℚ)
      (k : String) (v : JSVal),
      (loadForFarm dateParse farmId savedCache farmCoordinates data
        now).written = some (k, v) →
      v = .obj [("_cached_at_ts", .num ((⌊now / 1000⌋ : ℤ) : ℚ)),
        ("response", data)]) ∧
    (∀ (jp : String → Option JSVal) (fuel : Nat)
      (farmId startDate endDate : String) (coords : JSVal)
      (forceRefresh : Bool) (cache : List (String × JSVal)) (data n : JSVal),
      normalizeAnalytics data = .ok n →
      (fetchAnalytics jp fuel farmId startDate endDate coords forceRefresh
        cache data).cacheAfter = cache ∨
      (fetchAnalytics jp fuel farmId startDate endDate coords forceRefresh
        cache data).cacheAfter =
        objSet cache (farmId ++ "_" ++ startDate ++ "_" ++ endDate) n) := by
  constructor
  · intro dateParse farmId savedCache farmCoordinates data now k v hw
    rcases loadForFarm_written_cases dateParse farmId savedCache
      farmCoordinates data now with h | h
    · rw [h] at hw
      simp at hw
    · rw [h] at hw
      rcases loadBackend_written_shape farmId farmCoordinates data now with
        h2 | ⟨key, h2⟩
      · rw [h2] at hw
        simp at hw
      · rw [h2] at hw
        simp only [Option.some.injEq, Prod.mk.injEq] at hw
        exact hw.2.symm
  · intro jp fuel farmId startDate endDate coords forceRefresh cache data n hN
    unfold fetchAnalytics
    rcases hP : parseCoords jp fuel coords with msg | cc
    · simp [hP]
    · simp only [hP]
      by_cases hcc : (forceRefresh = false ∧
          truthy (objGetD cache (farmId ++ "_" ++ startDate ++ "_" ++ endDate)) = true)
      · rw [if_pos hcc]
        left
        rfl
      · rw [if_neg hcc]
        rcases hE : jsGet data "error" with msg | e
        · simp [hE]
        · simp only [hE]
          by_cases hte : truthy e = true
          · simp [hte]
          · rw [if_neg hte]
            simp [hN]

/-- C9 witness: a concrete insights write carries the timestamp/response
wrapper, and a concrete dashboard write stores the bare normalized object. -/
theorem cache_entry_shape_amended_witness :
    (JSVal.obj [("_cached_at_ts", .num 5), ("response", .obj [])] : JSVal) =
      .obj [("_cached_at_ts", .num ((⌊(5000 : ℚ) / 1000⌋ : ℤ) : ℚ)),
        ("response", .obj [])] ∧
    ((fetchAnalytics jpNone 1 "f" "s" "e" .null true []
      (.obj [("growth_stage", .str "g")])).cacheAfter = [] ∨
    (fetchAnalytics jpNone 1 "f" "s" "e" .null true []
      (.obj [("growth_stage", .str "g")])).cacheAfter =
      objSet [] ("f" ++ "_" ++ "s" ++ "_" ++ "e")
        (.obj (("growth_stage", JSVal.str "g") :: c4Suffix))) := by
  constructor
  · exact cache_entry_shape_amended.1 (fun _ => none) "f" .null
      (.arr [.num 1]) (.obj []) 5000 "f_auto_auto"
      (.obj [("_cached_at_ts", .num 5), ("response", .obj [])])
      (by
        rw [show (loadForFarm (fun _ => none) "f" .null (.arr [.num 1])
            (.obj []) 5000).written =
          some ("f_auto_auto",
            .obj [("_cached_at_ts",
              .num ((⌊(5000 : ℚ) / 1000⌋ : ℤ) : ℚ)), ("response", .obj [])])
          from rfl]
        norm_num)
  · exact cache_entry_shape_amended.2 jpNone 1 "f" "s" "e" .null true []
      (.obj [("growth_stage", JSVal.str "g")])
      (.obj (("growth_stage", JSVal.str "g") :: c4Suffix)) (by rfl)

theorem pickStep_eq (dateParse : String → Option ℚ) (store : JSVal)
    (b : String × Stamp) (k : String) :
    pickStep dateParse store b k =
      match effStamp dateParse store k with
      | none => b
      | some q => if stampGt (.fin q) b.2 then (k, .fin q) else b := by
  unfold pickStep effStamp
  by_cases ht : truthy (jsGetD store k) = false
  · simp [ht]
  · rw [if_neg ht, if_neg ht]
    cases hs : stampOf dateParse (jsGetD store k) with
    | negInf => simp [stampTruthy, stampGt]
    | nan => simp [stampTruthy]
    | fin q =>
      by_cases hq : q = 0
      · subst hq
        simp [stampTruthy]
      · simp [stampTruthy, hq]

theorem pick_fold_mem (dateParse : String → Option ℚ) (store : JSVal)
    (ks : List String) :
    ∀ b : String × Stamp,
      (ks.foldl (pickStep dateParse store) b).1 = b.1 ∨
      (ks.foldl (pickStep dateParse store) b).1 ∈ ks := by
  induction ks with
  | nil => intro b; left; rfl
  | cons k t ih =>
    intro b
    rw [List.foldl_cons]
    have hstep : (pickStep dateParse store b k).1 = b.1 ∨
        (pickStep dateParse store b k).1 = k := by
      rw [pickStep_eq]
      cases effStamp dateParse store k with
      | none => left; rfl
      | some q =>
        by_cases h : stampGt (.fin q) b.2 = true
        · right
          show (if stampGt (.fin q) b.2 = true then (k, Stamp.fin q) else b).1 = k
          rw [if_pos h]
        · left
          show (if stampGt (.fin q) b.2 = true then (k, Stamp.fin q) else b).1 = b.1
          rw [if_neg h]
    rcases ih (pickStep dateParse store b k) with h1 | h1
    · rcases hstep with h2 | h2
      · left; rw [h1, h2]
      · right; rw [h1, h2]; exact List.mem_cons_self _ _
    · right; exact List.mem_cons_of_mem _ h1

theorem pick_fold_none (dateParse : String → Option ℚ) (store : JSVal)
    (ks : List String) :
    ∀ b, (∀ k ∈ ks, effStamp dateParse store k = none) →
      ks.foldl (pickStep dateParse store) b = b := by
  induction ks with
  | nil => intro b _; rfl
  | cons k t ih =>
    intro b h
    rw [List.foldl_cons, pickStep_eq, h k (List.mem_cons_self _ _)]
    exact ih b (fun k2 hk2 => h k2 (List.mem_cons_of_mem _ hk2))

theorem pick_fold_main (dateParse : String → Option ℚ) (store : JSVal)
    (ks : List String) :
    ∀ b, goodBest dateParse store b →
      goodBest dateParse store (ks.foldl (pickStep dateParse store) b) ∧
      (∀ q, stampGe b.2 q →
        stampGe (ks.foldl (pickStep dateParse store) b).2 q) ∧
      (∀ k ∈ ks, ∀ q, effStamp dateParse store k = some q →
        stampGe (ks.foldl (pickStep dateParse store) b).2 q) := by
  induction ks with
  | nil =>
    intro b hb
    exact ⟨hb, fun q h => h, by simp⟩
  | cons k t ih =>
    intro b hb
    rw [List.foldl_cons]
    cases he : effStamp dateParse store k with
    | none =>
      have hred : pickStep dateParse store b k = b := by
        rw [pickStep_eq, he]
      rw [hred]
      obtain ⟨g1, g2, g3⟩ := ih b hb
      refine ⟨g1, g2, ?_⟩
      intro k2 hk2 q hq
      rcases List.mem_cons.mp hk2 with he2 | hmem
      · subst he2
        rw [he] at hq
        simp at hq
      · exact g3 k2 hmem q hq
    | some q0 =>
      by_cases hgt : stampGt (.fin q0) b.2 = true
      · have hred : pickStep dateParse store b k = (k, .fin q0) := by
          rw [pickStep_eq, he]
          show (if stampGt (.fin q0) b.2 = true then (k, Stamp.fin q0) else b) =
            (k, .fin q0)
          rw [if_pos hgt]
        rw [hred]
        obtain ⟨g1, g2, g3⟩ := ih (k, .fin q0) (Or.inr ⟨q0, rfl, he⟩)
        refine ⟨g1, ?_, ?_⟩
        · intro q hq
          obtain ⟨qb, hbeq, hle⟩ := hq
          have hlt : qb < q0 := by
            rw [hbeq] at hgt
            simpa [stampGt] using hgt
          exact g2 q ⟨q0, rfl, hle.trans hlt.le⟩
        · intro k2 hk2 q hq
          rcases List.mem_cons.mp hk2 with he2 | hmem
          · subst he2
            rw [he] at hq
            have hqq := Option.some.inj hq
            exact g2 q ⟨q0, rfl, le_of_eq hqq.symm⟩
          · exact g3 k2 hmem q hq
      · have hred : pickStep dateParse store b k = b := by
          rw [pickStep_eq, he]
          show (if stampGt (.fin q0) b.2 = true then (k, Stamp.fin q0) else b) = b
          rw [if_neg hgt]
        rw [hred]
        have hbfin : ∃ qb, b.2 = .fin qb ∧ q0 ≤ qb := by
          rcases hb with h | ⟨qb, hq, _⟩
          · rw [h] at hgt
            simp [stampGt] at hgt
          · refine ⟨qb, hq, ?_⟩
            rw [hq] at hgt
            have h2 : ¬(qb < q0) := by simpa [stampGt] using hgt
            exact not_lt.mp h2
        obtain ⟨g1, g2, g3⟩ := ih b hb
        refine ⟨g1, g2, ?_⟩
        intro k2 hk2 q hq
        rcases List.mem_cons.mp hk2 with he2 | hmem
        · subst he2
          rw [he] at hq
          have hqq := Option.some.inj hq
          obtain ⟨qb, hbeq, hle⟩ := hbfin
          exact g2 q ⟨qb, hbeq, by rw [← hqq]; exact hle⟩
        · exact g3 k2 hmem q hq

theorem insights_selection_zero_timestamp :
    candsOf "f" c10CexStore = ["f_a", "f_b"] ∧
    toNumber (jsGetD (jsGetD c10CexStore "f_b") "_cached_at_ts") = some 0 ∧
    (pickBestKey (fun _ => none) c10CexStore (candsOf "f" c10CexStore)).1 =
      "f_a" := ⟨rfl, rfl, rfl⟩

/-- C10 amended: among the keys prefixed `farmId_`, the chooser returns a
candidate key; when no candidate has an effective (truthy, finite, nonzero)
timestamp it returns the first candidate in store key order; and any
candidate's effective timestamp is bounded by the chosen entry's effective
timestamp. -/
theorem insights_cache_selection_amended (dateParse : String → Option ℚ)
    (farmId : String) (savedCache : JSVal)
    (hne : candsOf farmId savedCache ≠ []) :
    (pickBestKey dateParse savedCache (candsOf farmId savedCache)).1 ∈
      candsOf farmId savedCache ∧
    ((∀ k ∈ candsOf farmId savedCache,
        effStamp dateParse savedCache k = none) →
      (pickBestKey dateParse savedCache (candsOf farmId savedCache)).1 =
        (candsOf farmId savedCache).headD "") ∧
    (∀ k ∈ candsOf farmId savedCache, ∀ q,
      effStamp dateParse savedCache k = some q →
      ∃ qb, effStamp dateParse savedCache
        (pickBestKey dateParse savedCache (candsOf farmId savedCache)).1 =
          some qb ∧ q ≤ qb) := by
  refine ⟨?_, ?_, ?_⟩
  · unfold pickBestKey
    rcases pick_fold_mem dateParse savedCache (candsOf farmId savedCache)
      ((candsOf farmId savedCache).headD "", .negInf) with h | h
    · rw [h]
      obtain ⟨c, t, hct⟩ := List.exists_cons_of_ne_nil hne
      rw [hct]
      simp
    · exact h
  · intro hall
    unfold pickBestKey
    rw [pick_fold_none dateParse savedCache _ _ hall]
  · intro k hk q hq
    unfold pickBestKey
    obtain ⟨g1, g2, g3⟩ := pick_fold_main dateParse savedCache
      (candsOf farmId savedCache)
      ((candsOf farmId savedCache).headD "", .negInf) (Or.inl rfl)
    obtain ⟨qb, hbeq, hle⟩ := g3 k hk q hq
    rcases g1 with h | ⟨qb2, hb2, heff⟩
    · rw [h] at hbeq
      simp at hbeq
    · have h3 := hb2.symm.trans hbeq
      injection h3 with h4
      rw [h4] at heff
      exact ⟨qb, heff, hle⟩

theorem insights_cache_selection_amended_witness :
    candsOf "g" c10Store ≠ [] ∧
    (pickBestKey (fun _ => none) c10Store (candsOf "g" c10Store)).1 ∈
      candsOf "g" c10Store := by
  have hne : candsOf "g" c10Store ≠ [] := by
    rw [show candsOf "g" c10Store = ["g_1", "g_2"] from rfl]
    simp
  exact ⟨hne,
    (insights_cache_selection_amended (fun _ => none) "g" c10Store hne).1⟩
